import Mathlib

/-!
Verification of the timesheet loader (`timesheet.py`): the canonical
Frame/Layer/Timesheet model with its normalization step, and the three
format readers (binary STS, JSON TDTS, JSON XDTS), shallowly embedded as
executable Lean functions.  Python exceptions are modelled by `Except PyErr`;
Python's unbounded `int` is modelled by `Int`/`Nat`.
-/

set_option autoImplicit false

namespace Shirahei

/-- The Python exceptions that the loader can raise, by class/message. -/
inductive PyErr where
  | indexError
  | unboundLocalError
  | notSTSFileFormatError
  | unicodeDecodeError
deriving DecidableEq, Repr

/-- `Frame` named tuple: a change point `(frame, cell)`.  Python ints are
unbounded, and JSON values can be negative, so both fields are `Int`. -/
structure Frame where
  frame : Int
  cell : Int
deriving DecidableEq, Repr

/-- `Layer` named tuple: a name and its sequence of change points. -/
structure Layer where
  name : String
  frames : List Frame
deriving DecidableEq, Repr

/-- The `Timesheet` object after `__init__` has run. -/
structure Timesheet where
  path : String
  name : String
  frame_count : Int
  layers : List Layer
deriving DecidableEq, Repr

/-! ### Normalization (`Timesheet.__init__`)

The constructor mutates each layer's frame list in place:
```
if frames[0].frame != 0:
    frames.insert(0, Frame(0, 0))
for i in range(len(frames) - 1, 0, -1):
    if frames[i].cell == frames[i - 1].cell:
        frames.pop(i)
```
We embed the loop literally: `pyPop` is `list.pop(i)`, `dedupStep` is one
iteration body, `descRange j = [j, j-1, ..., 1]` is `range(len-1, 0, -1)`
(whose bounds Python computes once, before any pop). -/

/-- Python `list.pop(i)` (the resulting list; `i` in range in all uses). -/
def pyPop (l : List Frame) (i : Nat) : List Frame :=
  l.take i ++ l.drop (i + 1)

/-- One iteration of the backward removal loop at index `i`.  In the source
the index accesses always succeed (the loop visits `i` only after at most
`len - 1 - i` pops, all at indices above `i`); the fallback `l` branch is
unreachable and only keeps the function total. -/
def dedupStep (l : List Frame) (i : Nat) : List Frame :=
  match l[i]?, l[i-1]? with
  | some a, some b => if a.cell = b.cell then pyPop l i else l
  | _, _ => l

/-- `descRange j = [j, j-1, ..., 1]`, the index sequence of
`range(j, 0, -1)`. -/
def descRange : Nat → List Nat
  | 0 => []
  | j + 1 => (j + 1) :: descRange j

/-- Run `dedupStep` over a list of indices, leftmost first. -/
def dedupLoop : List Frame → List Nat → List Frame
  | l, [] => l
  | l, i :: is => dedupLoop (dedupStep l i) is

/-- The whole backward removal pass of `Timesheet.__init__`. -/
def dedupBackward (l : List Frame) : List Frame :=
  dedupLoop l (descRange (l.length - 1))

/-- Recursive characterization of `dedupBackward` (proved equivalent below):
keep an element iff its cell differs from its original predecessor's cell. -/
def keepChanges (prev : Frame) : List Frame → List Frame
  | [] => []
  | f :: rest =>
    if f.cell = prev.cell then keepChanges f rest else f :: keepChanges f rest

/-- Normalization of one layer's frame list, as `Timesheet.__init__` performs
it.  On an empty list the source evaluates `frames[0]` and raises
`IndexError` before reaching the insert. -/
def normalizeFrames : List Frame → Except PyErr (List Frame)
  | [] => .error .indexError
  | f :: rest =>
    let fs := if f.frame ≠ 0 then Frame.mk 0 0 :: f :: rest else f :: rest
    .ok (dedupBackward fs)

/-- `Timesheet.__init__`'s loop over the layers (first failure aborts). -/
def normalizeLayers : List Layer → Except PyErr (List Layer)
  | [] => .ok []
  | l :: rest =>
    match normalizeFrames l.frames with
    | .error e => .error e
    | .ok fs =>
      match normalizeLayers rest with
      | .error e => .error e
      | .ok rest' => .ok (Layer.mk l.name fs :: rest')

/-- The `Timesheet` constructor. -/
def mkTimesheet (path name : String) (frame_count : Int) (layers : List Layer) :
    Except PyErr Timesheet :=
  match normalizeLayers layers with
  | .error e => .error e
  | .ok layers' => .ok (Timesheet.mk path name frame_count layers')

/-! ### Shared helpers -/

/-- `os.path.basename` / `pathlib.Path.name`: the part of the path after the
last `/` separator. -/
def basename (p : String) : String :=
  String.mk ((p.toList.reverse.takeWhile (fun c => c ≠ '/')).reverse)

/-- Python list subscription `l[i]`: a negative index counts from the end;
`none` models the `IndexError` on an out-of-range index. -/
def pyIndex {α : Type} (l : List α) (i : Int) : Option α :=
  let j : Int := if i < 0 then (l.length : Int) + i else i
  if j < 0 then none else l[j.toNat]?

/-- The whitespace characters `int()` strips (ASCII subset of `str.strip`). -/
def isPySpace (c : Char) : Bool :=
  c == ' ' || c == '\t' || c == '\n' || c == '\r' || c == '\x0b' || c == '\x0c'

/-- Digit tail of a Python int literal after its first digit: further digits
with single underscores allowed strictly between digits. -/
def pyDigitsAux (acc : Nat) : List Char → Option Nat
  | [] => some acc
  | c :: rest =>
    if c.isDigit then pyDigitsAux (acc * 10 + (c.toNat - 48)) rest
    else if c == '_' then
      match rest with
      | [] => none
      | d :: rest2 =>
        if d.isDigit then pyDigitsAux (acc * 10 + (d.toNat - 48)) rest2 else none
    else none

/-- A full run of digits (must start with a digit). -/
def pyDigits : List Char → Option Nat
  | [] => none
  | c :: rest => if c.isDigit then pyDigitsAux (c.toNat - 48) rest else none

/-- Python `int(s)` in base 10 on ASCII input: surrounding whitespace is
stripped, one optional sign, then decimal digits (Python's acceptance of
non-ASCII Unicode digits/spaces is not modelled; no input in this
development uses them).  `none` models the `ValueError`. -/
def pyInt (s : String) : Option Int :=
  let cs := ((s.toList.dropWhile isPySpace).reverse.dropWhile isPySpace).reverse
  match cs with
  | '-' :: rest => (pyDigits rest).map (fun n => -(n : Int))
  | '+' :: rest => (pyDigits rest).map (fun n => (n : Int))
  | _ => (pyDigits cs).map (fun n => (n : Int))

/-- Numeric value of a digit run. -/
def digitsVal (cs : List Char) : Nat :=
  cs.foldl (fun a c => a * 10 + (c.toNat - 48)) 0

/-- `re.compile(r"\d+$").search(value)` followed by `int(match.group())`:
the maximal trailing run of decimal digits, parsed; `none` when the string
ends in a non-digit (or is empty), i.e. when `search` returns no match.
(`\d` also matches non-ASCII Unicode digits in Python; only ASCII digits are
modelled, and no input in this development uses others.) -/
def trailingDigits (s : String) : Option Nat :=
  let run := (s.toList.reverse.takeWhile Char.isDigit).reverse
  if run.isEmpty then none else some (digitsVal run)

/-! ### JSON table shapes

The readers access `timeTable` dictionaries through a fixed set of keys;
these structures embed exactly the fields read.  `frame["data"][0]["values"][0]`
is flattened into the single `value` field of an entry. -/

/-- One element of a track's `frames` array. -/
structure TTEntry where
  frame : Int
  value : String
deriving DecidableEq, Repr

/-- One element of a field's `tracks` array. -/
structure TTrack where
  trackNo : Int
  frames : List TTEntry
deriving DecidableEq, Repr

/-- One element of the `fields` array. -/
structure TTField where
  fieldId : Int
  tracks : List TTrack
deriving DecidableEq, Repr

/-- One element of the `timeTableHeaders` array. -/
structure TTHeader where
  fieldId : Int
  names : List String
deriving DecidableEq, Repr

/-- One `timeTable` object. -/
structure TimeTable where
  name : String
  duration : Int
  fields : List TTField
  timeTableHeaders : List TTHeader
deriving DecidableEq, Repr

/-! ### TDTS reader (`TDTS.__read` and constructor) -/

/-- TDTS value-to-cell mapping for one frame entry: the sentinel maps to
cell 0, anything else goes through `int(value)`; `none` is the caught
`ValueError` whose handler runs `continue`. -/
def tdtsEntryCell (value : String) : Option Int :=
  if value = "SYMBOL_NULL_CELL" then some 0 else pyInt value

/-- The `for frame in track["frames"]` loop of `TDTS.__read`. -/
def tdtsFramesLoop : List TTEntry → List Frame
  | [] => []
  | e :: rest =>
    match tdtsEntryCell e.value with
    | none => tdtsFramesLoop rest
    | some cell => Frame.mk e.frame cell :: tdtsFramesLoop rest

/-- The `for track in tracks` loop of `TDTS.__read`. -/
def tdtsTracksLoop (names : List String) : List TTrack → Except PyErr (List Layer)
  | [] => .ok []
  | t :: rest =>
    match pyIndex names t.trackNo with
    | none => .error .indexError
    | some nm =>
      match tdtsTracksLoop names rest with
      | .error e => .error e
      | .ok layers => .ok (Layer.mk nm (tdtsFramesLoop t.frames) :: layers)

/-- `TDTS.__read`: locate the `fieldId == 4` field and header; when either
is missing the layer list is empty. -/
def tdtsRead (tt : TimeTable) : Except PyErr (List Layer × Int) :=
  let frame_count := tt.duration
  match (tt.fields.find? (fun f => f.fieldId == 4)).map TTField.tracks,
        (tt.timeTableHeaders.find? (fun h => h.fieldId == 4)).map TTHeader.names with
  | some tracks, some names =>
    match tdtsTracksLoop names tracks with
    | .error e => .error e
    | .ok layers => .ok (layers, frame_count)
  | _, _ => .ok ([], frame_count)

/-- `TDTS.__init__` minus the file-system plumbing. -/
def tdtsParse (path timeSheet_name : String) (tt : TimeTable) :
    Except PyErr Timesheet :=
  match tdtsRead tt with
  | .error e => .error e
  | .ok (layers, frame_count) =>
    mkTimesheet path
      (basename path ++ "->" ++ timeSheet_name ++ "->" ++ tt.name)
      frame_count layers

/-! ### XDTS reader (`XDTS.__read` and constructor)

`cell` is a local of `__read`, assigned inside the frame loop and read by
`frames.append(Frame(frame["frame"], cell))`; it therefore persists across
iterations and across tracks of the same call, and reading it before any
assignment raises `UnboundLocalError`.  The `Option Int` in `XRState.cell`
models exactly this (with `none` for "not yet bound"), and `diags` collects
the tracebacks printed for `NotNumberError`. -/

/-- The three values `XDTS.__read` skips with `continue`. -/
def xdtsTickValues : List String :=
  ["SYMBOL_TICK_1", "SYMBOL_TICK_2", "SYMBOL_HYPHEN"]

/-- State carried through an `XDTS.__read` call. -/
structure XRState where
  cell : Option Int
  diags : List String
deriving DecidableEq, Repr

/-- The body of `for frame in track["frames"]` in `XDTS.__read`, for one
entry. -/
def xdtsEntryStep (st : XRState) (frames : List Frame) (e : TTEntry) :
    Except PyErr (XRState × List Frame) :=
  if e.value = "SYMBOL_NULL_CELL" then
    .ok ({ st with cell := some 0 }, frames ++ [Frame.mk e.frame 0])
  else if e.value ∈ xdtsTickValues then
    .ok (st, frames)
  else
    match trailingDigits e.value with
    | some n =>
      .ok ({ st with cell := some (n : Int) }, frames ++ [Frame.mk e.frame (n : Int)])
    | none =>
      match st.cell with
      | some c =>
        .ok ({ st with diags := st.diags ++ ["NotNumberError:" ++ e.value] },
             frames ++ [Frame.mk e.frame c])
      | none => .error .unboundLocalError

/-- The `for frame in track["frames"]` loop of `XDTS.__read`. -/
def xdtsFramesLoop (st : XRState) (frames : List Frame) :
    List TTEntry → Except PyErr (XRState × List Frame)
  | [] => .ok (st, frames)
  | e :: rest =>
    match xdtsEntryStep st frames e with
    | .error err => .error err
    | .ok (st', frames') => xdtsFramesLoop st' frames' rest

/-- The `for track in tracks` loop of `XDTS.__read`. -/
def xdtsTracksLoop (names : List String) (st : XRState) :
    List TTrack → Except PyErr (XRState × List Layer)
  | [] => .ok (st, [])
  | t :: rest =>
    match pyIndex names t.trackNo with
    | none => .error .indexError
    | some nm =>
      match xdtsFramesLoop st [] t.frames with
      | .error err => .error err
      | .ok (st', frames) =>
        match xdtsTracksLoop names st' rest with
        | .error err => .error err
        | .ok (st'', layers) => .ok (st'', Layer.mk nm frames :: layers)

/-- `XDTS.__read`: the relevant field is `fields[0]` (an `IndexError` when
`fields` is empty); its `fieldId` selects the header for names. -/
def xdtsRead (tt : TimeTable) : Except PyErr (List Layer × Int × List String) :=
  let frame_count := tt.duration
  match tt.fields[0]? with
  | none => .error .indexError
  | some field =>
    match (tt.timeTableHeaders.find? (fun h => h.fieldId == field.fieldId)).map
        TTHeader.names with
    | none => .ok ([], frame_count, [])
    | some names =>
      match xdtsTracksLoop names (XRState.mk none []) field.tracks with
      | .error e => .error e
      | .ok (st, layers) => .ok (layers, frame_count, st.diags)

/-- `XDTS.__init__` minus the file-system plumbing. -/
def xdtsParse (path : String) (tt : TimeTable) : Except PyErr Timesheet :=
  match xdtsRead tt with
  | .error e => .error e
  | .ok (layers, frame_count, _) =>
    mkTimesheet path (basename path ++ "->" ++ tt.name) frame_count layers

/-! ### STS binary reader (`STS.__init__`)

A bytes file opened with `open(path, "rb")`: `f.read(n)` returns the next
`min(n, remaining)` bytes — a short read yields a shorter bytes object, not
an error — and `f.int(n) = int.from_bytes(f.read(n), "little", signed=False)`,
where `int.from_bytes` of the empty bytes is `0`. -/

/-- The file object: the raw bytes and the current offset. -/
structure ByteReader where
  data : List Nat
  pos : Nat
deriving DecidableEq, Repr

/-- `f.read(n)`. -/
def bread (r : ByteReader) (n : Nat) : List Nat × ByteReader :=
  let bs := (r.data.drop r.pos).take n
  (bs, ByteReader.mk r.data (r.pos + bs.length))

/-- `int.from_bytes(bs, byteorder='little', signed=False)`. -/
def fromBytesLE : List Nat → Nat
  | [] => 0
  | b :: rest => b + 256 * fromBytesLE rest

/-- The injected `f.int(n)` helper. -/
def breadInt (r : ByteReader) (n : Nat) : Nat × ByteReader :=
  let p := bread r n
  (fromBytesLE p.1, p.2)

/-- One scalar of a strict UTF-8 decode: the first code point of `bs` and
the remaining bytes, or `none` on an invalid prefix.  Follows the strict
codec that `bytes.decode()` uses: C0/C1 and other overlong forms, lone or
out-of-place continuation bytes, surrogate encodings (ED A0..), code points
above U+10FFFF (F4 90.., F5..FF) all fail. -/
def utf8DecodeOne : List Nat → Option (Nat × List Nat)
  | [] => none
  | b :: rest =>
    if b < 0x80 then some (b, rest)
    else if b < 0xC2 then none
    else if b < 0xE0 then
      match rest with
      | [] => none
      | b1 :: rest1 =>
        if 0x80 ≤ b1 ∧ b1 < 0xC0 then
          some ((b - 0xC0) * 0x40 + (b1 - 0x80), rest1)
        else none
    else if b < 0xF0 then
      match rest with
      | b1 :: b2 :: rest2 =>
        if (0x80 ≤ b1 ∧ b1 < 0xC0) ∧ (0x80 ≤ b2 ∧ b2 < 0xC0) ∧
            ¬(b = 0xE0 ∧ b1 < 0xA0) ∧ ¬(b = 0xED ∧ 0xA0 ≤ b1) then
          some ((b - 0xE0) * 0x1000 + (b1 - 0x80) * 0x40 + (b2 - 0x80), rest2)
        else none
      | _ => none
    else if b < 0xF5 then
      match rest with
      | b1 :: b2 :: b3 :: rest3 =>
        if (0x80 ≤ b1 ∧ b1 < 0xC0) ∧ (0x80 ≤ b2 ∧ b2 < 0xC0) ∧
            (0x80 ≤ b3 ∧ b3 < 0xC0) ∧
            ¬(b = 0xF0 ∧ b1 < 0x90) ∧ ¬(b = 0xF4 ∧ 0x90 ≤ b1) then
          some ((b - 0xF0) * 0x40000 + (b1 - 0x80) * 0x1000 +
                (b2 - 0x80) * 0x40 + (b3 - 0x80), rest3)
        else none
      | _ => none
    else none

/-- Decoding loop with fuel (each scalar consumes at least one byte, so
`bs.length` steps always suffice). -/
def utf8DecodeAux : Nat → List Nat → Option (List Nat)
  | _, [] => some []
  | 0, _ :: _ => none
  | fuel + 1, b :: rest =>
    match utf8DecodeOne (b :: rest) with
    | none => none
    | some (cp, rest') => (utf8DecodeAux fuel rest').map (cp :: ·)

/-- `bytes.decode()` (strict UTF-8) to a list of code points; `none` models
the `UnicodeDecodeError`. -/
def utf8Decode (bs : List Nat) : Option (List Nat) :=
  utf8DecodeAux bs.length bs

/-- The code points of the magic string `"ShiraheiTimeSheet"` (pure ASCII). -/
def stsMagicCodes : List Nat :=
  [0x53, 0x68, 0x69, 0x72, 0x61, 0x68, 0x65, 0x69,
   0x54, 0x69, 0x6D, 0x65, 0x53, 0x68, 0x65, 0x65, 0x74]

/-- `name_bytes.decode("shift-jis")`, modelled on the ASCII subset of
Shift-JIS (on which it is the identity); byte sequences containing a
non-ASCII byte are conservatively treated as undecodable.  No layer name in
this development, and no property proved below, involves a non-ASCII
Shift-JIS sequence. -/
def sjisDecode (bs : List Nat) : Option String :=
  if bs.all (fun b => b < 0x80) then some (String.mk (bs.map Char.ofNat))
  else none

/-- The inner dense-grid loop of `STS.__init__`: `for j in range(frame_count)`
reading one 2-byte cell per frame and appending a change point when the cell
differs from the last appended one (or unconditionally when `frames` is
empty). -/
def stsFramesLoop (r : ByteReader) (j : Nat) (frames : List Frame) :
    Nat → List Frame × ByteReader
  | 0 => (frames, r)
  | fuel + 1 =>
    let p := breadInt r 2
    let frames' :=
      match frames.getLast? with
      | none => frames ++ [Frame.mk (j : Int) (p.1 : Int)]
      | some f =>
        if f.cell ≠ (p.1 : Int) then frames ++ [Frame.mk (j : Int) (p.1 : Int)]
        else frames
    stsFramesLoop p.2 (j + 1) frames' fuel

/-- The outer grid loop: `for i in range(layer_count)`. -/
def stsGridLoop (r : ByteReader) (frame_count : Nat) (acc : List (List Frame)) :
    Nat → List (List Frame) × ByteReader
  | 0 => (acc, r)
  | fuel + 1 =>
    let p := stsFramesLoop r 0 [] frame_count
    stsGridLoop p.2 frame_count (acc ++ [p.1]) fuel

/-- The name loop: `for i in range(layer_count)` reading a length byte and
then the Shift-JIS name, pairing it with `frames_list[i]`. -/
def stsNamesLoop (r : ByteReader) (i : Nat) (frames_list : List (List Frame))
    (acc : List Layer) : Nat → Except PyErr (List Layer × ByteReader)
  | 0 => .ok (acc, r)
  | fuel + 1 =>
    let p1 := breadInt r 1
    let p2 := bread p1.2 p1.1
    match sjisDecode p2.1 with
    | none => .error .unicodeDecodeError
    | some name =>
      match frames_list[i]? with
      | none => .error .indexError
      | some fr =>
        stsNamesLoop p2.2 (i + 1) frames_list (acc ++ [Layer.mk name fr]) fuel

/-- `STS.__init__` on the file's bytes. -/
def stsParse (path : String) (data : List Nat) : Except PyErr Timesheet :=
  let r0 := ByteReader.mk data 0
  let q1 := bread r0 1
  let q2 := bread q1.2 17
  match utf8Decode q2.1 with
  | none => .error .unicodeDecodeError
  | some s =>
    if s ≠ stsMagicCodes then .error .notSTSFileFormatError
    else
      let q3 := breadInt q2.2 1
      let q4 := breadInt q3.2 2
      let q5 := bread q4.2 2
      let q6 := stsGridLoop q5.2 q4.1 [] q3.1
      match stsNamesLoop q6.2 0 q6.1 [] q3.1 with
      | .error e => .error e
      | .ok (layers, _) =>
        mkTimesheet path (basename path) (q4.1 : Int) layers

/-! ### Concrete inputs used by individual theorems -/

/-- A TDTS table whose single track has one frame entry with the unparseable
value `"abc"`: the entry is dropped, leaving the layer's raw frame list
empty when it reaches `Timesheet.__init__`. -/
def c1Table : TimeTable :=
  TimeTable.mk "T1" 8 [TTField.mk 4 [TTrack.mk 0 [TTEntry.mk 5 "abc"]]]
    [TTHeader.mk 4 ["A"]]

/-- The synthetic STS buffer of the round-trip property: 1 reserved byte,
the magic, `layer_count = 1`, `frame_count = 4` (little endian), 2 reserved
bytes, the grid `[5, 5, 7, 7]` as little-endian 2-byte values, and one name
record (length 1, name `"A"`). -/
def stsRoundTripBuf : List Nat :=
  [0] ++ stsMagicCodes ++ [1] ++ [4, 0] ++ [0, 0] ++
    [5, 0, 5, 0, 7, 0, 7, 0] ++ [1, 0x41]

/-- An 18-byte STS buffer: the reserved byte and the magic, then nothing.
Every later framing step requests bytes that are not there. -/
def stsShortBuf : List Nat := 0 :: stsMagicCodes

/-- An STS buffer whose 17 bytes after the reserved byte start with `0xFF`,
which is invalid in UTF-8, so `decode()` itself raises. -/
def stsBadByteBuf : List Nat := [0, 0xFF] ++ List.replicate 16 0x41

/-! ## Lemmas about the backward removal loop

The loop visits the indices `len-1, ..., 1` of the original list.  A pop at
index `i` only shifts elements above `i`, and the loop continues below `i`;
this section proves that the loop equals the recursive `keepChanges`
characterization, by reverse induction on the list. -/

theorem pyPop_length {l : List Frame} {i : Nat} (h : i < l.length) :
    (pyPop l i).length = l.length - 1 := by
  simp only [pyPop, List.length_append, List.length_take, List.length_drop]
  omega

theorem pyPop_append (a : Frame) {m : List Frame} {i : Nat} (h : i < m.length) :
    pyPop (m ++ [a]) i = pyPop m i ++ [a] := by
  unfold pyPop
  rw [List.take_append_eq_append_take, List.drop_append_eq_append_drop]
  have h1 : i - m.length = 0 := by omega
  have h2 : i + 1 - m.length = 0 := by omega
  simp [h1, h2]

theorem dedupStep_append (a : Frame) {m : List Frame} {i : Nat}
    (h : i < m.length) : dedupStep (m ++ [a]) i = dedupStep m i ++ [a] := by
  have h' : i - 1 < m.length := lt_of_le_of_lt (Nat.sub_le _ _) h
  unfold dedupStep
  rw [List.getElem?_append, if_pos h, List.getElem?_append, if_pos h']
  cases m[i]? with
  | none => rfl
  | some x =>
    cases m[i-1]? with
    | none => rfl
    | some y =>
      by_cases hc : x.cell = y.cell
      · simp [hc, pyPop_append a h]
      · simp [hc]

theorem dedupStep_length_ge {m : List Frame} (i : Nat) :
    m.length - 1 ≤ (dedupStep m i).length := by
  unfold dedupStep
  cases hms : m[i]? with
  | none => simp
  | some x =>
    cases m[i-1]? with
    | none => simp
    | some y =>
      by_cases hc : x.cell = y.cell
      · have hi : i < m.length := by
          by_contra hge
          rw [List.getElem?_eq_none (Nat.le_of_not_lt hge)] at hms
          exact Option.noConfusion hms
        simp [hc, pyPop_length hi]
      · simp [hc]

theorem dedupLoop_append_last (a : Frame) :
    ∀ (j : Nat) (m : List Frame), j < m.length →
      dedupLoop (m ++ [a]) (descRange j) = dedupLoop m (descRange j) ++ [a]
  | 0, m, _ => rfl
  | j + 1, m, h => by
    show dedupLoop (dedupStep (m ++ [a]) (j + 1)) (descRange j) =
      dedupLoop (dedupStep m (j + 1)) (descRange j) ++ [a]
    rw [dedupStep_append a h]
    refine dedupLoop_append_last a j (dedupStep m (j + 1)) ?_
    have := dedupStep_length_ge (m := m) (j + 1)
    omega

theorem dedupBackward_concat_drop {m : List Frame} {a b : Frame}
    (hb : m.getLast? = some b) (hc : a.cell = b.cell) :
    dedupBackward (m ++ [a]) = dedupBackward m := by
  have hm : m ≠ [] := by
    intro h
    rw [h] at hb
    exact Option.noConfusion hb
  have hlen : 0 < m.length := List.length_pos.mpr hm
  obtain ⟨k, hk⟩ : ∃ k, m.length = k + 1 := ⟨m.length - 1, by omega⟩
  unfold dedupBackward
  have hlen2 : (m ++ [a]).length - 1 = k + 1 := by simp [hk]
  rw [hlen2]
  show dedupLoop (dedupStep (m ++ [a]) (k + 1)) (descRange k) =
    dedupLoop m (descRange (m.length - 1))
  have hstep : dedupStep (m ++ [a]) (k + 1) = m := by
    unfold dedupStep
    have e1 : (m ++ [a])[k+1]? = some a := by
      rw [← hk]
      exact List.getElem?_concat_length m a
    have e2 : (m ++ [a])[k+1-1]? = some b := by
      simp only [Nat.add_sub_cancel]
      rw [List.getElem?_append, if_pos (by omega)]
      rw [List.getLast?_eq_getElem?] at hb
      rw [hk] at hb
      simpa using hb
    rw [e1, e2]
    dsimp only
    rw [if_pos hc]
    unfold pyPop
    have e3 : List.take (k + 1) (m ++ [a]) = m := by
      rw [← hk]
      exact List.take_left m [a]
    have e4 : List.drop (k + 1 + 1) (m ++ [a]) = [] := by
      apply List.drop_eq_nil_of_le
      simp [hk]
    rw [e3, e4, List.append_nil]
  rw [hstep, hk]
  norm_num

theorem dedupBackward_concat_keep {m : List Frame} {a b : Frame}
    (hb : m.getLast? = some b) (hc : a.cell ≠ b.cell) :
    dedupBackward (m ++ [a]) = dedupBackward m ++ [a] := by
  have hm : m ≠ [] := by
    intro h
    rw [h] at hb
    exact Option.noConfusion hb
  have hlen : 0 < m.length := List.length_pos.mpr hm
  obtain ⟨k, hk⟩ : ∃ k, m.length = k + 1 := ⟨m.length - 1, by omega⟩
  unfold dedupBackward
  have hlen2 : (m ++ [a]).length - 1 = k + 1 := by simp [hk]
  rw [hlen2]
  show dedupLoop (dedupStep (m ++ [a]) (k + 1)) (descRange k) =
    dedupLoop m (descRange (m.length - 1)) ++ [a]
  have hstep : dedupStep (m ++ [a]) (k + 1) = m ++ [a] := by
    unfold dedupStep
    have e1 : (m ++ [a])[k+1]? = some a := by
      rw [← hk]
      exact List.getElem?_concat_length m a
    have e2 : (m ++ [a])[k+1-1]? = some b := by
      simp only [Nat.add_sub_cancel]
      rw [List.getElem?_append, if_pos (by omega)]
      rw [List.getLast?_eq_getElem?] at hb
      rw [hk] at hb
      simpa using hb
    rw [e1, e2]
    dsimp only
    rw [if_neg hc]
  rw [hstep, dedupLoop_append_last a k m (by omega), hk]
  norm_num

theorem keepChanges_concat :
    ∀ (l : List Frame) (prev a b : Frame), (prev :: l).getLast? = some b →
      keepChanges prev (l ++ [a]) =
        if a.cell = b.cell then keepChanges prev l
        else keepChanges prev l ++ [a] := by
  intro l
  induction l with
  | nil =>
    intro prev a b hb
    have hpb : prev = b := by simpa using hb
    subst hpb
    by_cases hc : a.cell = prev.cell <;> simp [keepChanges, hc]
  | cons f t ih =>
    intro prev a b hb
    rw [List.getLast?_cons_cons] at hb
    by_cases hf : f.cell = prev.cell <;>
      by_cases hc : a.cell = b.cell <;>
        simp [keepChanges, hf, hc, ih f a b hb]

theorem dedupBackward_eq_keepChanges (x : Frame) (rest : List Frame) :
    dedupBackward (x :: rest) = x :: keepChanges x rest := by
  induction rest using List.reverseRecOn with
  | nil => rfl
  | append_singleton rest' a ih =>
    have hcons : x :: (rest' ++ [a]) = (x :: rest') ++ [a] := rfl
    obtain ⟨b, hb⟩ : ∃ b, (x :: rest').getLast? = some b := by
      have := List.getLast?_isSome.mpr (List.cons_ne_nil x rest')
      exact Option.isSome_iff_exists.mp this
    by_cases hc : a.cell = b.cell
    · rw [hcons, dedupBackward_concat_drop hb hc, ih,
        keepChanges_concat rest' x a b hb, if_pos hc]
    · rw [hcons, dedupBackward_concat_keep hb hc, ih,
        keepChanges_concat rest' x a b hb, if_neg hc]
      simp

theorem chain'_keepChanges :
    ∀ (l : List Frame) (prev : Frame),
      List.Chain' (fun u v : Frame => u.cell ≠ v.cell)
        (prev :: keepChanges prev l) := by
  intro l
  induction l with
  | nil =>
    intro prev
    exact List.chain'_singleton prev
  | cons f t ih =>
    intro prev
    by_cases hf : f.cell = prev.cell
    · simp only [keepChanges, if_pos hf]
      have hchain := ih f
      cases hkc : keepChanges f t with
      | nil => exact List.chain'_singleton prev
      | cons g u =>
        rw [hkc, List.chain'_cons] at hchain
        rw [List.chain'_cons]
        refine ⟨?_, hchain.2⟩
        rw [← hf]
        exact hchain.1
    · simp only [keepChanges, if_neg hf]
      rw [List.chain'_cons]
      exact ⟨fun h => hf h.symm, ih f⟩

theorem keepChanges_of_chain' :
    ∀ (l : List Frame) (prev : Frame),
      List.Chain' (fun u v : Frame => u.cell ≠ v.cell) (prev :: l) →
      keepChanges prev l = l := by
  intro l
  induction l with
  | nil => intro prev _; rfl
  | cons f t ih =>
    intro prev hch
    rw [List.chain'_cons] at hch
    have hf : ¬f.cell = prev.cell := fun h => hch.1 h.symm
    simp only [keepChanges, if_neg hf]
    rw [ih f hch.2]

/-! ## Lemmas about normalization -/

theorem normalizeFrames_cons (f : Frame) (rest : List Frame) :
    ∃ x t, normalizeFrames (f :: rest) = .ok (x :: keepChanges x t) ∧
      x.frame = 0 := by
  by_cases hf : f.frame ≠ 0
  · refine ⟨Frame.mk 0 0, f :: rest, ?_, rfl⟩
    simp only [normalizeFrames, if_pos hf]
    rw [dedupBackward_eq_keepChanges]
  · push_neg at hf
    refine ⟨f, rest, ?_, hf⟩
    simp only [normalizeFrames]
    rw [if_neg (by simp [hf] : ¬f.frame ≠ 0), dedupBackward_eq_keepChanges]

theorem normalizeFrames_chain' {frames fs : List Frame}
    (h : normalizeFrames frames = .ok fs) :
    List.Chain' (fun u v : Frame => u.cell ≠ v.cell) fs := by
  cases frames with
  | nil => exact Except.noConfusion h
  | cons f rest =>
    obtain ⟨x, t, he, _⟩ := normalizeFrames_cons f rest
    rw [he] at h
    have : x :: keepChanges x t = fs := by
      injection h
    rw [← this]
    exact chain'_keepChanges t x

theorem normalizeLayers_chain' :
    ∀ {layers out : List Layer}, normalizeLayers layers = .ok out →
      ∀ l ∈ out, List.Chain' (fun u v : Frame => u.cell ≠ v.cell) l.frames := by
  intro layers
  induction layers with
  | nil =>
    intro out h l hl
    have : ([] : List Layer) = out := by injection h
    rw [← this] at hl
    exact absurd hl (List.not_mem_nil l)
  | cons l0 rest ih =>
    intro out h l hl
    simp only [normalizeLayers] at h
    cases hn : normalizeFrames l0.frames with
    | error e => rw [hn] at h; exact Except.noConfusion h
    | ok fs =>
      rw [hn] at h
      cases hr : normalizeLayers rest with
      | error e => rw [hr] at h; exact Except.noConfusion h
      | ok rest' =>
        rw [hr] at h
        have : Layer.mk l0.name fs :: rest' = out := by injection h
        rw [← this] at hl
        cases hl with
        | head => exact normalizeFrames_chain' hn
        | tail _ hmem => exact ih hr l hmem

theorem mkTimesheet_ok_layers {p n : String} {fc : Int} {layers : List Layer}
    {ts : Timesheet} (h : mkTimesheet p n fc layers = .ok ts) :
    normalizeLayers layers = .ok ts.layers := by
  unfold mkTimesheet at h
  cases hn : normalizeLayers layers with
  | error e => rw [hn] at h; exact Except.noConfusion h
  | ok layers' =>
    rw [hn] at h
    have : Timesheet.mk p n fc layers' = ts := by injection h
    rw [← this]

/-! ## Readers reach the shared constructor -/

theorem stsParse_ok_mk {p : String} {data : List Nat} {ts : Timesheet}
    (h : stsParse p data = .ok ts) :
    ∃ a b c d, mkTimesheet a b c d = .ok ts := by
  simp only [stsParse] at h
  split at h
  · exact Except.noConfusion h
  · split at h
    · exact Except.noConfusion h
    · split at h
      · exact Except.noConfusion h
      · exact ⟨_, _, _, _, h⟩

theorem tdtsParse_ok_mk {p sn : String} {tt : TimeTable} {ts : Timesheet}
    (h : tdtsParse p sn tt = .ok ts) :
    ∃ a b c d, mkTimesheet a b c d = .ok ts := by
  unfold tdtsParse at h
  split at h
  · exact Except.noConfusion h
  · exact ⟨_, _, _, _, h⟩

theorem xdtsParse_ok_mk {p : String} {tt : TimeTable} {ts : Timesheet}
    (h : xdtsParse p tt = .ok ts) :
    ∃ a b c d, mkTimesheet a b c d = .ok ts := by
  unfold xdtsParse at h
  split at h
  · exact Except.noConfusion h
  · exact ⟨_, _, _, _, h⟩

/-! ## Lemmas about the UTF-8 decoder and the STS magic check -/

theorem utf8DecodeOne_length {b : Nat} {t : List Nat} {cp : Nat}
    {rest : List Nat} (h : utf8DecodeOne (b :: t) = some (cp, rest)) :
    rest.length ≤ t.length := by
  simp only [utf8DecodeOne] at h
  repeat' split at h
  all_goals try exact Option.noConfusion h
  all_goals
    injection h with h'
    injection h' with h1 h2
    subst h2
    try simp only [List.length_cons]
    omega

theorem utf8DecodeAux_length :
    ∀ (fuel : Nat) (bs cs : List Nat), utf8DecodeAux fuel bs = some cs →
      cs.length ≤ bs.length := by
  intro fuel
  induction fuel with
  | zero =>
    intro bs cs h
    cases bs with
    | nil =>
      have : ([] : List Nat) = cs := by injection h
      rw [← this]
    | cons b t => exact Option.noConfusion h
  | succ fuel ih =>
    intro bs cs h
    cases bs with
    | nil =>
      have : ([] : List Nat) = cs := by injection h
      rw [← this]
    | cons b t =>
      simp only [utf8DecodeAux] at h
      cases hd : utf8DecodeOne (b :: t) with
      | none => rw [hd] at h; exact Option.noConfusion h
      | some p =>
        rw [hd] at h
        obtain ⟨cp, rest'⟩ := p
        obtain ⟨cs', hcs', hcons⟩ := Option.map_eq_some'.mp h
        have h1 := ih rest' cs' hcs'
        have h2 := utf8DecodeOne_length hd
        rw [← hcons]
        simp only [List.length_cons]
        omega

theorem utf8Decode_length {bs cs : List Nat} (h : utf8Decode bs = some cs) :
    cs.length ≤ bs.length :=
  utf8DecodeAux_length bs.length bs cs h

theorem stsParse_decode_none {path : String} {data : List Nat}
    (h : utf8Decode ((data.drop (data.take 1).length).take 17) = none) :
    stsParse path data = .error .unicodeDecodeError := by
  simp only [stsParse, bread, List.drop_zero, Nat.zero_add]
  rw [h]

theorem stsParse_decode_mismatch {path : String} {data : List Nat}
    {s : List Nat}
    (h : utf8Decode ((data.drop (data.take 1).length).take 17) = some s)
    (hs : s ≠ stsMagicCodes) :
    stsParse path data = .error .notSTSFileFormatError := by
  simp only [stsParse, bread, List.drop_zero, Nat.zero_add]
  rw [h]
  simp only [if_pos hs]

/-! ## Claim theorems -/

/-- Claim C1 (code bug): the spec says an empty raw frame sequence gets a
synthetic `(0, 0)` entry prepended, but `Timesheet.__init__` evaluates
`frames[0].frame` before any emptiness check, so a layer whose raw sequence
is empty — reachable, e.g. from a TDTS track whose only entry is
unparseable — raises `IndexError` and no Timesheet is constructed. -/
theorem claim1_empty_frames_fatal :
    tdtsParse "cut.tdts" "CUT1" c1Table = .error .indexError ∧
    normalizeFrames [] = .error .indexError :=
  ⟨rfl, rfl⟩

/-- Claim C2 (counterexample): the 18-byte buffer holding just the reserved
byte and the magic is too short for the later framing steps (the
`layer_count`, `frame_count`, reserved and grid reads all come up empty),
yet the STS reader returns a Timesheet — short reads after the magic are
not fatal, contradicting the claim. -/
theorem claim2_counterexample :
    stsShortBuf.length = 18 ∧
    stsParse "a.sts" stsShortBuf = .ok (Timesheet.mk "a.sts" "a.sts" 0 []) :=
  ⟨rfl, rfl⟩

/-- Claim C2 (amended): a stream too short to contain even the reserved
byte plus the 17 magic bytes always fails fatally (the short magic slice
can never decode to the 17-character magic string); truncation after a
valid magic is not necessarily fatal. -/
theorem claim2_short_header_fatal (path : String) (data : List Nat)
    (h : data.length < 18) : ∃ e, stsParse path data = .error e := by
  cases hdec : utf8Decode ((data.drop (data.take 1).length).take 17) with
  | none => exact ⟨_, stsParse_decode_none hdec⟩
  | some cs =>
    refine ⟨_, stsParse_decode_mismatch hdec ?_⟩
    intro hcs
    have hle := utf8Decode_length hdec
    rw [hcs] at hle
    rw [show stsMagicCodes.length = 17 from rfl] at hle
    simp only [List.length_take, List.length_drop] at hle
    omega

/-- Witness for the amended claim C2 at the empty stream. -/
theorem claim2_witness : ∃ e, stsParse "a.sts" ([] : List Nat) = .error e :=
  claim2_short_header_fatal "a.sts" [] (by decide)

/-- Claim C3: in `XDTS.__read`, a non-sentinel value with no trailing digit
run records a `NotNumberError` diagnostic and the entry is still appended,
carrying the most recently computed cell value of the call (here the state
`st.cell = some c`). -/
theorem claim3_stale_cell_append (st : XRState) (frames : List Frame)
    (e : TTEntry) (c : Int) (hc : st.cell = some c)
    (h1 : e.value ≠ "SYMBOL_NULL_CELL") (h2 : e.value ∉ xdtsTickValues)
    (h3 : trailingDigits e.value = none) :
    xdtsEntryStep st frames e =
      .ok ({ st with diags := st.diags ++ ["NotNumberError:" ++ e.value] },
           frames ++ [Frame.mk e.frame c]) := by
  simp [xdtsEntryStep, h1, h2, h3, hc]

/-- Witness for claim C3 at the value `"abc"` with previous cell 7. -/
theorem claim3_witness :
    xdtsEntryStep (XRState.mk (some 7) []) [] (TTEntry.mk 5 "abc") =
      .ok (XRState.mk (some 7) ["NotNumberError:abc"], [Frame.mk 5 7]) := by
  rw [claim3_stale_cell_append (XRState.mk (some 7) []) [] (TTEntry.mk 5 "abc")
    7 rfl (by decide) (by decide) (by decide)]
  rfl

/-- Claim C4: every layer of every successfully constructed Timesheet —
whether built directly or through any of the three readers, all of which
end in `mkTimesheet` — has no two consecutive entries with equal cells. -/
theorem claim4_no_consecutive_dupes (ts : Timesheet)
    (h : (∃ p n fc ls, mkTimesheet p n fc ls = .ok ts) ∨
         (∃ p data, stsParse p data = .ok ts) ∨
         (∃ p sn tt, tdtsParse p sn tt = .ok ts) ∨
         (∃ p tt, xdtsParse p tt = .ok ts)) :
    ∀ l ∈ ts.layers,
      List.Chain' (fun u v : Frame => u.cell ≠ v.cell) l.frames := by
  have hmk : ∃ a b c d, mkTimesheet a b c d = .ok ts := by
    rcases h with ⟨p, n, fc, ls, h⟩ | ⟨p, data, h⟩ | ⟨p, sn, tt, h⟩ | ⟨p, tt, h⟩
    · exact ⟨p, n, fc, ls, h⟩
    · exact stsParse_ok_mk h
    · exact tdtsParse_ok_mk h
    · exact xdtsParse_ok_mk h
  obtain ⟨a, b, c, d, hmk⟩ := hmk
  exact normalizeLayers_chain' (mkTimesheet_ok_layers hmk)

/-- Witness for claim C4 at a concrete one-layer Timesheet. -/
theorem claim4_witness :
    List.Chain' (fun u v : Frame => u.cell ≠ v.cell)
      (Layer.mk "L" [Frame.mk 0 1]).frames :=
  claim4_no_consecutive_dupes
    (Timesheet.mk "p" "n" 0 [Layer.mk "L" [Frame.mk 0 1]])
    (Or.inl ⟨"p", "n", 0, [Layer.mk "L" [Frame.mk 0 1]], rfl⟩)
    (Layer.mk "L" [Frame.mk 0 1]) (by simp)

/-- Claim C5: the normalization of `Timesheet.__init__` is idempotent —
running it on its own output returns that output unchanged (on the empty
list both sides are the same `IndexError`). -/
theorem claim5_normalize_idempotent (frames : List Frame) :
    (normalizeFrames frames >>= normalizeFrames) = normalizeFrames frames := by
  cases frames with
  | nil => rfl
  | cons f rest =>
    obtain ⟨x, t, he, hx⟩ := normalizeFrames_cons f rest
    rw [he]
    show normalizeFrames (x :: keepChanges x t) = .ok (x :: keepChanges x t)
    simp only [normalizeFrames]
    rw [if_neg (by simp [hx] : ¬x.frame ≠ 0), dedupBackward_eq_keepChanges,
      keepChanges_of_chain' (keepChanges x t) x (chain'_keepChanges t x)]

/-- Claim C6: the synthetic STS buffer (magic, one layer, four frames, grid
`[5, 5, 7, 7]`, name `"A"`) yields one Timesheet whose single layer's frames
are `[(0, 5), (2, 7)]`. -/
theorem claim6_sts_round_trip :
    stsParse "sheet.sts" stsRoundTripBuf =
      .ok (Timesheet.mk "sheet.sts" "sheet.sts" 4
        [Layer.mk "A" [Frame.mk 0 5, Frame.mk 2 7]]) :=
  rfl

/-- Claim C7 (counterexample): a buffer whose 17 bytes after the reserved
byte are not valid UTF-8 does not decode to the magic, yet the failure is
the decode error, not `NotSTSFileFormatError` as the claim states. -/
theorem claim7_counterexample :
    utf8Decode ((stsBadByteBuf.drop (stsBadByteBuf.take 1).length).take 17) ≠
      some stsMagicCodes ∧
    stsParse "a.sts" stsBadByteBuf = .error .unicodeDecodeError ∧
    PyErr.unicodeDecodeError ≠ PyErr.notSTSFileFormatError :=
  ⟨by decide, rfl, by decide⟩

/-- Claim C7 (amended): when the 17 bytes after the reserved byte do not
decode to the magic string the parse always fails fatally with no
Timesheet: with `NotSTSFileFormatError` when they decode to some other
string, and with the decode error when they are not valid UTF-8. -/
theorem claim7_bad_magic_fatal (path : String) (data : List Nat) :
    (utf8Decode ((data.drop (data.take 1).length).take 17) = none →
      stsParse path data = .error .unicodeDecodeError) ∧
    (∀ s, utf8Decode ((data.drop (data.take 1).length).take 17) = some s →
      s ≠ stsMagicCodes →
      stsParse path data = .error .notSTSFileFormatError) :=
  ⟨fun h => stsParse_decode_none h, fun _ h hs => stsParse_decode_mismatch h hs⟩

/-- Witness for the amended claim C7: a wrong-but-decodable magic and an
undecodable one. -/
theorem claim7_witness :
    stsParse "b.sts" (0 :: List.replicate 17 0) =
      .error .notSTSFileFormatError ∧
    stsParse "b.sts" [0, 0xC0] = .error .unicodeDecodeError :=
  ⟨(claim7_bad_magic_fatal "b.sts" (0 :: List.replicate 17 0)).2
      (List.replicate 17 0) (by decide) (by decide),
   (claim7_bad_magic_fatal "b.sts" [0, 0xC0]).1 (by decide)⟩

/-- Claim C8: TDTS value mapping — the sentinel gives cell 0, any other
value goes through `int()`, and a failed parse drops the entry and
continues with the rest (the loop is total: it never aborts the table). -/
theorem claim8_tdts_value_mapping (e : TTEntry) (rest : List TTEntry) :
    (e.value = "SYMBOL_NULL_CELL" →
      tdtsFramesLoop (e :: rest) = Frame.mk e.frame 0 :: tdtsFramesLoop rest) ∧
    (∀ n : Int, e.value ≠ "SYMBOL_NULL_CELL" → pyInt e.value = some n →
      tdtsFramesLoop (e :: rest) = Frame.mk e.frame n :: tdtsFramesLoop rest) ∧
    (e.value ≠ "SYMBOL_NULL_CELL" → pyInt e.value = none →
      tdtsFramesLoop (e :: rest) = tdtsFramesLoop rest) := by
  refine ⟨fun h => ?_, fun n h1 h2 => ?_, fun h1 h2 => ?_⟩
  · simp [tdtsFramesLoop, tdtsEntryCell, h]
  · simp [tdtsFramesLoop, tdtsEntryCell, h1, h2]
  · simp [tdtsFramesLoop, tdtsEntryCell, h1, h2]

/-- Witness for claim C8: `"SYMBOL_NULL_CELL"` at frame 3 yields `(3, 0)`
and the unparseable `"abc"` at frame 5 leaves no entry. -/
theorem claim8_witness :
    tdtsFramesLoop [TTEntry.mk 3 "SYMBOL_NULL_CELL", TTEntry.mk 5 "abc"] =
      [Frame.mk 3 0] := by
  rw [(claim8_tdts_value_mapping (TTEntry.mk 3 "SYMBOL_NULL_CELL")
        [TTEntry.mk 5 "abc"]).1 rfl,
      (claim8_tdts_value_mapping (TTEntry.mk 5 "abc") []).2.2
        (by decide) (by decide)]
  rfl

/-- Claim C9: XDTS value mapping — the tick/hyphen sentinels contribute no
entry at all, `"SYMBOL_NULL_CELL"` maps to cell 0, and any other value with
a trailing digit run maps to that run parsed as a decimal integer. -/
theorem claim9_xdts_value_mapping (st : XRState) (frames : List Frame)
    (e : TTEntry) :
    (e.value ∈ xdtsTickValues → xdtsEntryStep st frames e = .ok (st, frames)) ∧
    (e.value = "SYMBOL_NULL_CELL" →
      xdtsEntryStep st frames e =
        .ok ({ st with cell := some 0 }, frames ++ [Frame.mk e.frame 0])) ∧
    (∀ n : Nat, e.value ≠ "SYMBOL_NULL_CELL" → e.value ∉ xdtsTickValues →
      trailingDigits e.value = some n →
      xdtsEntryStep st frames e =
        .ok ({ st with cell := some (n : Int) },
             frames ++ [Frame.mk e.frame (n : Int)])) := by
  refine ⟨fun hmem => ?_, fun h => ?_, fun n h1 h2 h3 => ?_⟩
  · have hne : e.value ≠ "SYMBOL_NULL_CELL" := by
      simp only [xdtsTickValues, List.mem_cons] at hmem
      rcases hmem with h | h | h | h
      · rw [h]; decide
      · rw [h]; decide
      · rw [h]; decide
      · exact absurd h (List.not_mem_nil _)
    simp [xdtsEntryStep, hne, hmem]
  · simp [xdtsEntryStep, h]
  · simp [xdtsEntryStep, h1, h2, h3]

/-- Witness for claim C9: `"SYMBOL_HYPHEN"` contributes nothing,
`"SYMBOL_NULL_CELL"` yields cell 0, `"cell_042"` yields cell 42. -/
theorem claim9_witness :
    xdtsEntryStep (XRState.mk none []) [] (TTEntry.mk 2 "SYMBOL_HYPHEN") =
      .ok (XRState.mk none [], []) ∧
    xdtsEntryStep (XRState.mk none []) [] (TTEntry.mk 3 "SYMBOL_NULL_CELL") =
      .ok (XRState.mk (some 0) [], [Frame.mk 3 0]) ∧
    xdtsEntryStep (XRState.mk none []) [] (TTEntry.mk 1 "cell_042") =
      .ok (XRState.mk (some 42) [], [Frame.mk 1 42]) :=
  ⟨(claim9_xdts_value_mapping (XRState.mk none []) []
      (TTEntry.mk 2 "SYMBOL_HYPHEN")).1 (by decide),
   (claim9_xdts_value_mapping (XRState.mk none []) []
      (TTEntry.mk 3 "SYMBOL_NULL_CELL")).2.1 rfl,
   (claim9_xdts_value_mapping (XRState.mk none []) []
      (TTEntry.mk 1 "cell_042")).2.2 42 (by decide) (by decide) (by decide)⟩

/-- Claim C10: when the first value the XDTS frame loop appends is a
non-sentinel value with no trailing digit run, `cell` is still unbound, so
the append raises `UnboundLocalError` and the whole table construction
fails — a fatal error, not a recoverable per-entry diagnostic. -/
theorem claim10_unbound_cell_fatal (v : String) (fr : Int)
    (rest : List TTEntry) (h1 : v ≠ "SYMBOL_NULL_CELL")
    (h2 : v ∉ xdtsTickValues) (h3 : trailingDigits v = none) :
    xdtsFramesLoop (XRState.mk none []) [] (TTEntry.mk fr v :: rest) =
      .error .unboundLocalError ∧
    ∀ (path tname lname : String) (dur : Int),
      xdtsParse path (TimeTable.mk tname dur
          [TTField.mk 0 [TTrack.mk 0 (TTEntry.mk fr v :: rest)]]
          [TTHeader.mk 0 [lname]]) = .error .unboundLocalError := by
  have hstep : xdtsEntryStep (XRState.mk none []) [] (TTEntry.mk fr v) =
      .error .unboundLocalError := by
    simp [xdtsEntryStep, h1, h2, h3]
  have hloop : xdtsFramesLoop (XRState.mk none []) []
      (TTEntry.mk fr v :: rest) = .error .unboundLocalError := by
    simp only [xdtsFramesLoop]
    rw [hstep]
  refine ⟨hloop, fun path tname lname dur => ?_⟩
  simp [xdtsParse, xdtsRead, xdtsTracksLoop, pyIndex, hloop]

/-- Witness for claim C10 at the value `"abc"`. -/
theorem claim10_witness :
    xdtsParse "p.xdts" (TimeTable.mk "T" 10
        [TTField.mk 0 [TTrack.mk 0 [TTEntry.mk 0 "abc"]]]
        [TTHeader.mk 0 ["A"]]) = .error .unboundLocalError :=
  (claim10_unbound_cell_fatal "abc" 0 [] (by decide) (by decide)
    (by decide)).2 "p.xdts" "T" "A" 10

end Shirahei
